import Mathlib

/-!
Verification of the `future` library (src/future.js, with src/unnamed/part_002 an
earlier revision of the same module) against its natural-language specification.

The module wraps a pending value in a Proxy whose traps record operations and
replay them, in issue order, by chaining them onto a per-future promise
(`_spliceOperator`).  The embedding below models:

  * JavaScript values, property descriptors and the errors the code can raise;
  * the denotation of one promise in a spliced chain (settle time plus outcome),
    the chain state of a future record, and `_spliceOperator` itself;
  * the handler the source literally installs, `.then(Reflect[operator])`
    (the resolved array is passed as the single argument of the Reflect function);
  * the get/set/deleteProperty traps, the identity registry (`links`,
    `Future.isFuture`, `Future.await`, `Future.from`), and `_enumerate`.

Two source-level notes, fixed throughout the development:

  * the source contains two pure syntax slips that are read as their evident
    intent, because the surrounding semantics does not depend on them: the
    unbalanced parenthesis in the sentinel scrub (future.js line 27, read as
    `.filter(key => ...configurable)`), and the unparenthesised destructuring
    arrows in `_enumerate` (lines 510, 518, 519, read as `({ resolve }) => ...`);
  * every other slip (the undefined `target` in the constructor, the missing
    spread in `.then(Reflect[operator])`, the undefined `value`/`receiver` in the
    deleteProperty trap, `backlog.unshift()` and the placement of `done = true`
    in `_enumerate`) is modelled literally, exactly as the interpreter would
    execute it — including the consequence that the two `Future.from` calls
    inside `_enumerate` throw the constructor's ReferenceError.
-/

/-- Primitive JavaScript values (the property values the claims exercise are all
primitive, so descriptors store these). -/
inductive JsPrim where
  | undefined
  | pnull
  | pbool (b : Bool)
  | pnum (n : Int)
  | pstr (s : String)
deriving DecidableEq, Repr

/-- Errors the modelled code can raise or reject with.  `custom` stands for an
arbitrary user-level rejection cause (the `E` of the spec's failure clauses). -/
inductive JsErr where
  | typeError (msg : String)
  | referenceError (name : String)
  | custom (tag : Nat)
deriving DecidableEq, Repr

/-- The `TypeError` thrown by `_get` (future.js line 444) for a value that is not
a registered future handle; the spec calls it `NotAFuture`. -/
def notAFuture : JsErr := .typeError "argument is not a Future"

/-- A property descriptor: either a data descriptor or an accessor descriptor.
`get = some v` models a getter that returns `v`; `get = none` an absent getter. -/
inductive JsDesc where
  | data (value : JsPrim) (writable configurable : Bool)
  | accessor (get : Option JsPrim) (hasSetter configurable : Bool)
deriving DecidableEq, Repr

/-- An object is its own-property table (string keys; none of the objects the
claims exercise carries symbol-keyed own properties). -/
def JsObj := List (String × JsDesc)

/-- A JavaScript value as the chain passes it around: a primitive or an object
snapshot. -/
inductive JsVal where
  | prim (p : JsPrim)
  | obj (o : JsObj)

/-- Truthiness/shape helpers for the descriptor checks the traps perform. -/
def JsDesc.configurableB : JsDesc → Bool
  | .data _ _ c => c
  | .accessor _ _ c => c

/-- The test `descriptor.writable === false`: only a data descriptor has a
boolean `writable`; an accessor's is `undefined`, which is not `=== false`. -/
def JsDesc.writableIsFalse : JsDesc → Bool
  | .data _ w _ => !w
  | .accessor _ _ _ => false

/-- Truthiness of `descriptor.writable` (undefined on accessors, hence falsy). -/
def JsDesc.writableTruthy : JsDesc → Bool
  | .data _ w _ => w
  | .accessor _ _ _ => false

/-- The test `descriptor.get === undefined`: true of every data descriptor (its
`get` field is absent) and of an accessor without a getter. -/
def JsDesc.getIsUndefined : JsDesc → Bool
  | .data _ _ _ => true
  | .accessor g _ _ => g.isNone

/-- Truthiness of `descriptor.set`. -/
def JsDesc.setTruthy : JsDesc → Bool
  | .data _ _ _ => false
  | .accessor _ s _ => s

/-- The value `Reflect.get(target, property, receiver)` yields for an own
property of `target` with this descriptor. -/
def JsDesc.ownValue : JsDesc → JsVal
  | .data v _ _ => .prim v
  | .accessor (some g) _ _ => .prim g
  | .accessor none _ _ => .prim .undefined

/-- Denotation of one promise of the spliced chain: the step at which it settles
and its outcome.  Promises are immutable once created; a record's `source` field
is reassigned to new promises, never a mutation of an old one. -/
structure PDen where
  time : Nat
  out : Except JsErr JsVal

/-- One parameter handed to `_spliceOperator`: either a plain value (coerced by
`Promise.resolve`, settling immediately) or a future/promise with its own settle
time and outcome (`Future.all` awaits it). -/
inductive SParam where
  | val (v : JsVal)
  | pend (time : Nat) (out : Except JsErr JsVal)

def SParam.den : SParam → PDen
  | .val v => ⟨0, .ok v⟩
  | .pend t o => ⟨t, o⟩

/-- State of one future record's chain: the settle step of the current tail, the
tail's outcome shape (`none` = it yields the receiver; `some e` = it rejects
with `e`), and the current contents of the underlying receiver object. -/
structure ChainSt where
  time : Nat
  failed : Option JsErr
  obj : JsObj

/-- Outcome of the promise `Future.await` returns for this record (future.js
lines 91-93: `_get(target).source`): the current chain tail. -/
def awaitOut (st : ChainSt) : Except JsErr JsVal :=
  match st.failed with
  | some e => .error e
  | none => .ok (.obj st.obj)

/-- Combined outcome of a list of settled promises, as `Promise.all` delivers it
when at most one input rejects (the regime of every theorem below; with several
rejections `Promise.all` picks the first in time, which the timeless outcome
model cannot express, so the theorems about failures carry the corresponding
single-failure hypotheses). -/
def seqOuts : List (Except JsErr JsVal) → Except JsErr (List JsVal)
  | [] => .ok []
  | .error e :: _ => .error e
  | .ok v :: rest =>
    match seqOuts rest with
    | .error e => .error e
    | .ok vs => .ok (v :: vs)

/-- Latest settle step among a list of promises (`Promise.all` waits for all). -/
def listMaxTime (l : List PDen) : Nat :=
  l.foldr (fun p acc => Nat.max p.time acc) 0

/-- The fixed set of operations the claims exercise (`Reflect[operator]` names). -/
inductive OpKind where
  | get
  | set
  | has
  | deleteProperty
deriving DecidableEq, Repr

/-- Semantics assigned to the chain handler `Reflect[operator]`: given the
operation, the argument list the handler receives, and the current contents of
the underlying receiver, produce the call's outcome and the (possibly mutated)
receiver contents.  `_spliceOperator` is stated generically in this so that its
structural properties (ordering, failure propagation) are independent of it. -/
def CallSem := OpKind → List JsVal → JsObj → Except JsErr JsVal × JsObj

/-- Resolution of `Future.all([original, ...parameters])`: if the chain tail has
failed its cause wins (it is the first element); otherwise the parameters are
resolved in argument order and prepended with the resolved receiver. -/
def resolvedArgs (st : ChainSt) (dens : List PDen) : Except JsErr (List JsVal) :=
  match st.failed with
  | some e => .error e
  | none =>
    match seqOuts (dens.map PDen.out) with
    | .error e => .error e
    | .ok vs => .ok (.obj st.obj :: vs)

def errOf : Except JsErr JsVal → Option JsErr
  | .ok _ => none
  | .error e => some e

/-- Embedding of `_spliceOperator` (future.js lines 463-469):

    let original = future.source,
        result = Future.all([original, ...parameters]).then(Reflect[operator])
    future.source = result.then(_ => original)
    return result

The returned `PDen` is `result`; the returned `ChainSt` is the record afterwards:
its tail settles after `result`, yields the receiver when `result` fulfils, and
rejects with `result`'s cause when it rejects.  The underlying receiver contents
are whatever `call` leaves behind. -/
def spliceOperator (call : CallSem) (st : ChainSt) (k : OpKind) (params : List SParam) :
    PDen × ChainSt :=
  match resolvedArgs st (params.map SParam.den) with
  | .error e =>
    (⟨Nat.max st.time (listMaxTime (params.map SParam.den)) + 1, .error e⟩,
     ⟨Nat.max st.time (listMaxTime (params.map SParam.den)) + 2, some e, st.obj⟩)
  | .ok args =>
    (⟨Nat.max st.time (listMaxTime (params.map SParam.den)) + 1, (call k args st.obj).1⟩,
     ⟨Nat.max st.time (listMaxTime (params.map SParam.den)) + 2, errOf (call k args st.obj).1,
      (call k args st.obj).2⟩)

/-- An operation queued through the traps: its kind and the parameters the trap
hands to `_spliceOperator`. -/
structure QueuedOp where
  kind : OpKind
  params : List SParam

/-- Splicing a list of operations one after another, synchronously, onto one
record; returns the `result` promise handed back for each operation, in issue
order, and the final record state. -/
def runOps (call : CallSem) (st : ChainSt) : List QueuedOp → List PDen × ChainSt
  | [] => ([], st)
  | o :: rest =>
    let r := spliceOperator call st o.kind o.params
    let rs := runOps call r.2 rest
    (r.1 :: rs.1, rs.2)

/-- The handler the source literally installs: `.then(Reflect[operator])`.  The
then-handler receives ONE argument, the resolved array, so `Reflect[operator]`
runs with the array as its `target` and `undefined` for every other parameter;
the property key is always `ToPropertyKey(undefined) = "undefined"`.  Hence:

  * `Reflect.get(arr, undefined)`: arrays have no own property `"undefined"`
    and `Array.prototype` provides none, so the result is `undefined`;
  * `Reflect.set(arr, undefined, undefined)`: defines `"undefined"` on the
    throwaway argument array and returns `true`;
  * `Reflect.has(arr, undefined)` is `false`;
  * `Reflect.deleteProperty(arr, undefined)`: nothing to delete, `true`.

In every case the underlying receiver object is never touched. -/
def reflectCallArray : CallSem := fun k _args o =>
  (match k with
   | .get => .ok (.prim .undefined)
   | .set => .ok (.prim (.pbool true))
   | .has => .ok (.prim (.pbool false))
   | .deleteProperty => .ok (.prim (.pbool true)), o)

example :
    (spliceOperator reflectCallArray ⟨0, none, []⟩ .get [.val (.prim (.pstr "x"))]).1.out
      = .ok (.prim .undefined) := rfl

example :
    (spliceOperator reflectCallArray ⟨0, some (.custom 7), []⟩ .get []).1.out
      = .error (.custom 7) := rfl

/-- A property key as seen by the proxy traps: a string or the well-known symbol
`Symbol.iterator` (the one symbol future.js special-cases, line 392). -/
inductive PropKey where
  | str (s : String)
  | symIterator
deriving DecidableEq, Repr

/-- Own-property descriptor lookup on a trap target
(`Reflect.getOwnPropertyDescriptor(target, property)`).  The targets the traps
ever receive (the scrubbed sentinel) carry no symbol-keyed own properties. -/
def descOf (target : JsObj) : PropKey → Option JsDesc
  | .str s => List.lookup s target
  | .symIterator => none

/-- The scrubbed `SENTINEL` target (future.js lines 23-28): a plain function
whose prototype is cleared and whose configurable own properties (`length`,
`name`) are deleted.  Its one remaining own property is `prototype`:
a writable, non-configurable, non-enumerable data property.  Its stored value
(the prototype object) is an opaque stand-in here: no theorem reads it, because
the synchronous-return branch of the get trap needs `writable === false`, which
never holds for it.  The scrub's `.filter` line (27) carries the unbalanced
parenthesis noted in the header and is read as its evident intent. -/
def SENTINEL : JsObj :=
  [("prototype", .data (.pstr "[SENTINEL.prototype]") true false)]

/-- The `receiver` argument the get/set traps forward: the future proxy itself.
`Future.all` maps it through `Future.await`, which reads the record's source at
splice time, i.e. the same promise as `original`. -/
def receiverParam (st : ChainSt) : SParam := .pend st.time (awaitOut st)

/-- The value a string property key contributes to the spliced parameter list. -/
def keyVal (s : String) : JsVal := .prim (.pstr s)

/-- Result of the get trap as seen by the caller. -/
inductive GetResult where
  | sync (v : JsVal)
  | enumGen
  | spliced (result : PDen)

/-- Embedding of the get trap (future.js lines 377-395):

    let descriptor = Reflect.getOwnPropertyDescriptor(target, property)
    if (descriptor && !descriptor.configurable) {
      if (descriptor.writable === false) return Reflect.get(target, property, receiver)
      if (descriptor.get === undefined) return undefined
    }
    if (property === Symbol.iterator) return Future.enumerate(target)
    return _spliceOperator(this, "get", property, receiver)

Note that the descriptor consulted is the proxy target's (the scrubbed
sentinel's), not the resolved receiver's, and that the `descriptor.get ===
undefined` branch fires for every non-configurable data descriptor, not only for
accessors.  The `Symbol.iterator` branch returns the generator produced by the
(generator function) `Future.enumerate` without running its body. -/
def getTrap (call : CallSem) (target : JsObj) (st : ChainSt) (property : PropKey) :
    GetResult × ChainSt :=
  let afterInvariants : GetResult × ChainSt :=
    if property = .symIterator then (.enumGen, st)
    else
      let key := match property with
        | .str s => keyVal s
        | .symIterator => .prim .undefined
      let r := spliceOperator call st .get [.val key, receiverParam st]
      (.spliced r.1, r.2)
  match descOf target property with
  | some d =>
    if !d.configurableB then
      if d.writableIsFalse then (.sync d.ownValue, st)
      else if d.getIsUndefined then (.sync (.prim .undefined), st)
      else afterInvariants
    else afterInvariants
  | none => afterInvariants

/-- Embedding of the set trap (future.js lines 411-421):

    let descriptor = Reflect.getOwnPropertyDescriptor(target, property)
    if (descriptor && !(descriptor.configurable || descriptor.writable || descriptor.set)) {
      return false
    }
    _spliceOperator(this, "set", property, value, receiver)
    return true

Again the descriptor consulted is the proxy target's, not the resolved
receiver's. -/
def setTrap (call : CallSem) (target : JsObj) (st : ChainSt) (property : String)
    (value : SParam) : Bool × ChainSt :=
  match List.lookup property target with
  | some d =>
    if !(d.configurableB || d.writableTruthy || d.setTruthy) then (false, st)
    else
      (true, (spliceOperator call st .set [.val (keyVal property), value, receiverParam st]).2)
  | none =>
    (true, (spliceOperator call st .set [.val (keyVal property), value, receiverParam st]).2)

/-- Embedding of the deleteProperty trap (future.js lines 347-355):

    let descriptor = Reflect.getOwnPropertyDescriptor(target, property)
    if (descriptor && !descriptor.configurable) return false
    _spliceOperator(this, "deleteProperty", property, value, receiver)
    return true

When the descriptor check passes, the body evaluates the identifiers `value` and
`receiver`, neither of which is in scope in this trap (its parameters are
`target` and `property`), so the trap throws a ReferenceError before splicing
anything the moment a deletable property is deleted. -/
def deleteTrap (target : JsObj) (st : ChainSt) (property : String) :
    Except JsErr (Bool × ChainSt) :=
  match List.lookup property target with
  | some d =>
    if !d.configurableB then .ok (false, st)
    else .error (.referenceError "value")
  | none => .error (.referenceError "value")

/-- Values as the identity registry sees them: a plain value (for which
`WeakMap.prototype.has` answers `false` without throwing, including primitives)
or a future handle carrying its identity. -/
inductive RVal where
  | plain (v : JsVal)
  | handle (id : Nat)

/-- The state of the `links` WeakMap: the identities of the registered future
proxy handles. -/
structure World where
  registered : List Nat

/-- Embedding of `Future.isFuture` (future.js lines 115-117): `links.has(value)`.
Total, hence it never throws, on any input including primitives. -/
def isFuture (w : World) : RVal → Bool
  | .plain _ => false
  | .handle i => decide (i ∈ w.registered)

/-- Embedding of `Future.await` (future.js lines 91-93) restricted to what the
registry decides: `_get(target)` throws `notAFuture` exactly when the argument
is not a registered handle, and otherwise hands back the record (identified here
by the handle's id), whose `source` the caller receives. -/
def awaitRecord (w : World) : RVal → Except JsErr Nat
  | .plain _ => .error notAFuture
  | .handle i => if i ∈ w.registered then .ok i else .error notAFuture

/-- Identifiers in scope in the constructor body of future.js (lines 287-304):
the parameter `source`, `this`, and the enclosing class `Future`. -/
def constructorScope : List String := ["source", "this", "Future"]

/-- Embedding of the `Future` constructor of future.js (lines 287-304).  Its
first statement evaluates `Future.isFuture(target)` (line 289); `target` is not
in scope (the parameter is named `source`), so in strict module code the
constructor throws a ReferenceError before registering anything.  The branch
modelling the rest of the body (register a fresh handle for the new proxy and
return it) is unreachable. -/
def constructFuture (w : World) (_src : JsVal) : Except JsErr (World × RVal) :=
  if "target" ∈ constructorScope then
    let id := (w.registered.foldr Nat.max 0) + 1
    .ok (⟨id :: w.registered⟩, .handle id)
  else .error (.referenceError "target")

/-- Embedding of `Future.from` (future.js lines 105-107):
`(new Future(value)).valueOf()`.  The constructor call throws, so the `valueOf`
step is never reached. -/
def fromFuture (w : World) (v : JsVal) : Except JsErr (World × RVal) :=
  constructFuture w v

example : fromFuture ⟨[]⟩ (.prim .pnull) = .error (.referenceError "target") := rfl
example : isFuture ⟨[3]⟩ (.handle 3) = true := rfl
example : awaitRecord ⟨[]⟩ (.plain (.prim .pnull)) = .error notAFuture := rfl

/-- One enumeration step as delivered to a consumer: the IteratorResult-shaped
pair `{ done, value }` (the terminal marker `{ done }` carries `value:
undefined`). -/
structure StepRes where
  done : Bool
  value : JsPrim
deriving DecidableEq, Repr

/-- The TypeError raised inside the success handler of `_enumerate` (future.js
line 502): `backlog.unshift()` takes no argument, so it inserts nothing and
returns the array's length — a number, whose `resolve` property is `undefined`
and therefore not callable. -/
def unshiftTypeError : JsErr := .typeError "backlog.unshift(...).resolve is not a function"

/-- What one `next()` call on the `_enumerate` generator gives the consumer:
an exception thrown out of the call, the iterator-protocol terminal result for
a completed generator (an ordinary `{done: true, value: undefined}`, not a
future), or a yielded step future with its eventual outcome. -/
inductive EnumReqRes where
  | threw (e : JsErr)
  | protocolDone
  | stepFuture (out : Except JsErr StepRes)

/-- The k-th (0-based) pre-settlement step request made on future.js's
`_enumerate` generator (lines 527-533):

    while (!done) {
      yield Future.from(new Promise((resolve, reject) => {
        backlog.push({ resolve, reject })
      }))
    }

The first `next()` runs the loop body: constructing the Promise synchronously
pushes a resolver slot onto the backlog, and then `Future.from` throws the
constructor's ReferenceError (see `constructFuture` and claim C5), so the
`next()` call itself throws and the generator completes.  Every later `next()`
finds the generator completed and returns the iterator-protocol terminal
result.  No `stepFuture` is ever produced. -/
def enumRequest : Nat → EnumReqRes
  | 0 => .threw (.referenceError "target")
  | _ + 1 => .protocolDone

/-- Number of resolver slots on the backlog after `n` pre-settlement requests:
one if any request was made (the first request pushes its slot just before
`Future.from` throws), zero otherwise; the generator being dead from the first
request on, no further slot is ever pushed. -/
def enumBacklogLen (n : Nat) : Nat := min n 1

/-- Settlement of the source in future.js's `_enumerate` (lines 496-524),
modelled literally over the orphaned backlog.  The first component lists the
dispositions of the backlog slots, in array order — no consumer holds any of
them, the futures for them never having been created; the second lists the
overflow entries available to requests made after settlement (`yield*
overflow`).

  * rejection with `e` (lines 513-524): the catch handler rejects every backlog
    slot with `e` and clears both lists; its overflow `forEach` touches nothing
    because the overflow is empty, the success handler never having run;
  * fulfilment with no elements: the distribution loop never runs, `done` is
    true, and the remaining backlog slots are resolved with the terminal marker
    `{ done: true }`;
  * fulfilment with elements, backlog non-empty: `done = true` is set BEFORE
    the loop, and the first element evaluates
    `backlog.unshift().resolve({ done, value })` — `unshift()` with no argument
    inserts nothing and returns the array's length, a number with no callable
    `resolve` — so the handler throws and the downstream catch rejects every
    slot with that TypeError;
  * fulfilment with elements, backlog empty: the first element evaluates
    `overflow.push(Future.from({ done, value }))`, and `Future.from` throws the
    constructor's ReferenceError before anything is pushed, so the handler dies
    into the catch with nothing to reject and nothing buffered.

On every path the overflow list ends empty: a request made after settlement is
served nothing. -/
def enumSettle (backlogLen : Nat) (src : Except JsErr (List JsPrim)) :
    List (Except JsErr StepRes) × List (Except JsErr StepRes) :=
  match src with
  | .error e => (List.replicate backlogLen (.error e), [])
  | .ok [] => (List.replicate backlogLen (.ok ⟨true, .undefined⟩), [])
  | .ok (_ :: _) =>
    if backlogLen ≠ 0 then (List.replicate backlogLen (.error unshiftTypeError), [])
    else ([], [])

example : enumRequest 0 = .threw (.referenceError "target") := rfl

example : enumSettle (enumBacklogLen 2) (.ok [.pstr "a"]) = ([.error unshiftTypeError], []) := rfl

example : enumSettle (enumBacklogLen 0) (.ok [.pstr "a"]) = ([], []) := rfl

/-- Whether an outcome is a fulfilment. -/
def exOk : Except JsErr JsVal → Bool
  | .ok _ => true
  | .error _ => false

theorem errOf_eq_none {o : Except JsErr JsVal} (h : exOk o = true) : errOf o = none := by
  cases o with
  | ok v => rfl
  | error e => simp [exOk] at h

theorem exOk_of_errOf_none {o : Except JsErr JsVal} (h : errOf o = none) : exOk o = true := by
  cases o with
  | ok v => rfl
  | error e => simp [errOf] at h

/-- A failed chain tail makes the spliced result and the new tail fail with the
same cause, whatever the operation, its parameters, or the call semantics. -/
theorem spliceOperator_failed (call : CallSem) (st : ChainSt) (k : OpKind)
    (params : List SParam) (e : JsErr) (h : st.failed = some e) :
    (spliceOperator call st k params).1.out = .error e ∧
      (spliceOperator call st k params).2.failed = some e := by
  simp [spliceOperator, resolvedArgs, h]

/-- When every promise in front of a rejected one fulfils, the combined
`Promise.all` outcome is that rejection. -/
theorem seqOuts_append_error (l1 l2 : List (Except JsErr JsVal)) (e : JsErr)
    (h : l1.all exOk = true) :
    seqOuts (l1 ++ .error e :: l2) = .error e := by
  induction l1 with
  | nil => simp [seqOuts]
  | cons o rest ih =>
    simp only [List.all_cons, Bool.and_eq_true] at h
    cases o with
    | error e2 => simp [exOk] at h
    | ok v =>
      simp [seqOuts, ih h.2]

/-- When `Future.all`'s combined wait fails, the spliced result and the new
tail fail with that cause. -/
theorem spliceOperator_resolve_error (call : CallSem) (st : ChainSt) (k : OpKind)
    (params : List SParam) (e : JsErr)
    (h : resolvedArgs st (params.map SParam.den) = .error e) :
    (spliceOperator call st k params).1.out = .error e ∧
      (spliceOperator call st k params).2.failed = some e := by
  simp [spliceOperator, h]

/-- A healthy tail plus a single rejected operand: the spliced result and the
new tail fail with the operand's cause (the operands in front of it fulfil, so
`Promise.all` rejects with exactly this cause). -/
theorem spliceOperator_operand_failed (call : CallSem) (st : ChainSt) (k : OpKind)
    (l1 l2 : List SParam) (t : Nat) (e : JsErr)
    (hst : st.failed = none)
    (h1 : (l1.map (fun p => (SParam.den p).out)).all exOk = true) :
    (spliceOperator call st k (l1 ++ .pend t (.error e) :: l2)).1.out = .error e ∧
      (spliceOperator call st k (l1 ++ .pend t (.error e) :: l2)).2.failed = some e := by
  refine spliceOperator_resolve_error call st k _ e ?_
  have hmaps : ((l1 ++ SParam.pend t (.error e) :: l2).map SParam.den).map PDen.out
      = (l1.map (fun p => (SParam.den p).out)) ++
          .error e :: (l2.map (fun p => (SParam.den p).out)) := by
    simp only [List.map_append, List.map_map, List.map_cons]
    rfl
  simp only [resolvedArgs, hst, hmaps, seqOuts_append_error _ _ e h1]

/-- Once the tail has failed, every further spliced operation's result fails
with the same cause, and the tail stays failed: nothing hangs and nothing is
retried. -/
theorem runOps_failed (call : CallSem) (st : ChainSt) (e : JsErr)
    (h : st.failed = some e) (ops : List QueuedOp) :
    (∀ r ∈ (runOps call st ops).1, r.out = .error e) ∧
      (runOps call st ops).2.failed = some e := by
  induction ops generalizing st with
  | nil => exact ⟨by intro r hr; simp [runOps] at hr, by simpa [runOps] using h⟩
  | cons o rest ih =>
    have hs := spliceOperator_failed call st o.kind o.params e h
    have ih2 := ih (spliceOperator call st o.kind o.params).2 hs.2
    refine ⟨?_, by simpa [runOps] using ih2.2⟩
    intro r hr
    simp only [runOps, List.mem_cons] at hr
    rcases hr with hr | hr
    · rw [hr]; exact hs.1
    · exact ih2.1 r hr

/-- Splicing distributes over concatenation of operation lists: the operations
of the second batch start from the record state the first batch left behind,
and the result promises already handed out for the first batch are exactly the
same ones.  This is the sense in which a later splice only moves the record's
chain pointer and never reaches back into a promise already returned. -/
theorem runOps_append (call : CallSem) (st : ChainSt) (l1 l2 : List QueuedOp) :
    runOps call st (l1 ++ l2) =
      ((runOps call st l1).1 ++ (runOps call (runOps call st l1).2 l2).1,
        (runOps call (runOps call st l1).2 l2).2) := by
  induction l1 generalizing st with
  | nil => simp [runOps]
  | cons o rest ih => simp [runOps, ih]

/-- A spliced operation whose result fulfils leaves behind a healthy tail. -/
theorem spliceOperator_ok_failed_none (call : CallSem) (st : ChainSt) (k : OpKind)
    (params : List SParam) (h : exOk (spliceOperator call st k params).1.out = true) :
    (spliceOperator call st k params).2.failed = none := by
  cases hr : resolvedArgs st (params.map SParam.den) with
  | error e =>
    simp only [spliceOperator, hr, exOk] at h
    cases h
  | ok args =>
    simp only [spliceOperator, hr] at h ⊢
    exact errOf_eq_none h

/-- A spliced operation whose result rejects leaves behind a tail failed with
the same cause. -/
theorem spliceOperator_error_failed (call : CallSem) (st : ChainSt) (k : OpKind)
    (params : List SParam) (e : JsErr)
    (h : (spliceOperator call st k params).1.out = .error e) :
    (spliceOperator call st k params).2.failed = some e := by
  cases hr : resolvedArgs st (params.map SParam.den) with
  | error e2 =>
    simp only [spliceOperator, hr] at h ⊢
    cases h
    rfl
  | ok args =>
    simp only [spliceOperator, hr] at h ⊢
    simp [errOf, h]

/-- When every result handed out for a batch of splices fulfils, the final tail
is healthy: awaiting it yields the receiver. -/
theorem runOps_all_ok (call : CallSem) (st : ChainSt) (ops : List QueuedOp)
    (hst : st.failed = none)
    (h : (runOps call st ops).1.all (fun r => exOk r.out) = true) :
    (runOps call st ops).2.failed = none := by
  induction ops generalizing st with
  | nil => simpa [runOps] using hst
  | cons o rest ih =>
    simp only [runOps, List.all_cons, Bool.and_eq_true] at h
    have h1 := spliceOperator_ok_failed_none call st o.kind o.params h.1
    simpa [runOps] using ih (spliceOperator call st o.kind o.params).2 h1 h.2

/-- The first failing result poisons the chain: if the results before it all
fulfil and it rejects with `e`, the final tail rejects with `e`. -/
theorem runOps_first_error (call : CallSem) (st : ChainSt) (ops : List QueuedOp)
    (rs1 : List PDen) (r : PDen) (rs2 : List PDen) (e : JsErr)
    (hst : st.failed = none)
    (hsplit : (runOps call st ops).1 = rs1 ++ r :: rs2)
    (hok : rs1.all (fun x => exOk x.out) = true)
    (herr : r.out = .error e) :
    (runOps call st ops).2.failed = some e := by
  induction ops generalizing st rs1 with
  | nil =>
    simp [runOps] at hsplit
  | cons o rest ih =>
    simp only [runOps] at hsplit ⊢
    cases rs1 with
    | nil =>
      simp only [List.nil_append, List.cons.injEq] at hsplit
      have hr0 : (spliceOperator call st o.kind o.params).1.out = .error e := by
        rw [hsplit.1]; exact herr
      have hfail := spliceOperator_error_failed call st o.kind o.params e hr0
      exact (runOps_failed call _ e hfail rest).2
    | cons x rs1' =>
      simp only [List.cons_append, List.cons.injEq] at hsplit
      simp only [List.all_cons, Bool.and_eq_true] at hok
      have hx : exOk (spliceOperator call st o.kind o.params).1.out = true := by
        rw [hsplit.1]; exact hok.1
      have h1 := spliceOperator_ok_failed_none call st o.kind o.params hx
      exact ih (spliceOperator call st o.kind o.params).2 rs1' h1 hsplit.2 hok.2

/-- A splice settles strictly after the previous tail, and the new tail strictly
after the operation's own result: timing bookkeeping for the ordering facts. -/
theorem spliceOperator_times (call : CallSem) (st : ChainSt) (k : OpKind)
    (params : List SParam) :
    st.time < (spliceOperator call st k params).2.time ∧
      (spliceOperator call st k params).1.time < (spliceOperator call st k params).2.time := by
  cases hr : resolvedArgs st (params.map SParam.den) with
  | error e =>
    simp only [spliceOperator, hr]
    exact ⟨Nat.lt_succ_of_le (Nat.le_succ_of_le (Nat.le_max_left _ _)), Nat.lt_succ_self _⟩
  | ok args =>
    simp only [spliceOperator, hr]
    exact ⟨Nat.lt_succ_of_le (Nat.le_succ_of_le (Nat.le_max_left _ _)), Nat.lt_succ_self _⟩

/-- The tail's settle step never moves backwards across a batch of splices. -/
theorem runOps_time_mono (call : CallSem) (st : ChainSt) (ops : List QueuedOp) :
    st.time ≤ (runOps call st ops).2.time := by
  induction ops generalizing st with
  | nil => simp [runOps]
  | cons o rest ih =>
    have h1 := (spliceOperator_times call st o.kind o.params).1
    calc st.time ≤ (spliceOperator call st o.kind o.params).2.time := Nat.le_of_lt h1
    _ ≤ _ := by simpa [runOps] using ih (spliceOperator call st o.kind o.params).2

/-- Every result promise handed out for a batch settles strictly before the
final tail: awaiting the record after the batch waits for all of them. -/
theorem runOps_results_settle_first (call : CallSem) (st : ChainSt) (ops : List QueuedOp) :
    ∀ r ∈ (runOps call st ops).1, r.time < (runOps call st ops).2.time := by
  induction ops generalizing st with
  | nil => intro r hr; simp [runOps] at hr
  | cons o rest ih =>
    intro r hr
    simp only [runOps, List.mem_cons] at hr
    rcases hr with hr | hr
    · have h2 := (spliceOperator_times call st o.kind o.params).2
      have h3 := runOps_time_mono call (spliceOperator call st o.kind o.params).2 rest
      rw [hr]
      calc (spliceOperator call st o.kind o.params).1.time
          < (spliceOperator call st o.kind o.params).2.time := h2
        _ ≤ _ := by simpa [runOps] using h3
    · simpa [runOps] using ih (spliceOperator call st o.kind o.params).2 r hr

/-- Under the literal handler `.then(Reflect[operator])` the underlying receiver
object is never written: every `Reflect` call operates on the throwaway argument
array. -/
theorem runOps_reflectCallArray_obj (st : ChainSt) (ops : List QueuedOp) :
    (runOps reflectCallArray st ops).2.obj = st.obj := by
  induction ops generalizing st with
  | nil => simp [runOps]
  | cons o rest ih =>
    have hstep : (spliceOperator reflectCallArray st o.kind o.params).2.obj = st.obj := by
      cases hr : resolvedArgs st (o.params.map SParam.den) with
      | error e => simp only [spliceOperator, hr]
      | ok args => simp only [spliceOperator, hr]; rfl
    simp only [runOps]
    rw [ih (spliceOperator reflectCallArray st o.kind o.params).2, hstep]

/-- The scrubbed sentinel's only own property is `prototype`. -/
theorem lookup_sentinel (p : String) (hp : p ≠ "prototype") :
    List.lookup p SENTINEL = none := by
  have hb : (p == "prototype") = false := beq_eq_false_iff_ne.mpr hp
  simp [SENTINEL, List.lookup, hb]

/-- Claim C1 scenario: a future over the empty object; its set trap is invoked
for `handle.p = 1` (property `"p"`, value `1`). -/
def c1St : ChainSt := ⟨0, none, []⟩

def c1Set : Bool × ChainSt :=
  setTrap reflectCallArray SENTINEL c1St "p" (.val (.prim (.pnum 1)))

/-- Two synchronously spliced sets whose own operands resolve at contrasting
latencies (the first operand at step 9, the second at step 1). -/
def c1Splice1 : PDen × ChainSt :=
  spliceOperator reflectCallArray c1St .set
    [.val (keyVal "p"), .pend 9 (.ok (.prim (.pnum 1))), receiverParam c1St]

def c1Splice2 : PDen × ChainSt :=
  spliceOperator reflectCallArray c1Splice1.2 .set
    [.val (keyVal "q"), .pend 1 (.ok (.prim (.pnum 2))), receiverParam c1Splice1.2]

/-- Claim C1, evaluated on the literal code at the failing input: the set trap
accepts `handle.p = 1` and splices it, the chain resolves cleanly, and the
`Reflect` invocations do run in issue order even when the second operation's
operand resolves much earlier than the first's — but the underlying resolved
value is never written (it is still the empty object, and awaiting the future
still yields that unchanged object), because `.then(Reflect[operator])` hands
the resolved `[receiver, "p", 1, receiver]` array to `Reflect.set` as its single
argument, so the write lands on that throwaway array under the key
`"undefined"`. -/
theorem C1_effects_never_reach_underlying_value :
    c1Set.1 = true ∧
    c1Set.2.failed = none ∧
    c1Set.2.obj = [] ∧
    awaitOut c1Set.2 = .ok (.obj []) ∧
    c1Splice1.1.time < c1Splice2.1.time ∧
    c1Splice2.2.failed = none ∧
    c1Splice2.2.obj = [] := by
  refine ⟨rfl, rfl, rfl, rfl, ?_, rfl, rfl⟩
  decide

/-- Claim C2 scenario: `Future.has(Future.from({foo: "bar"}), "foo")`. -/
def c2Obj : JsObj := [("foo", .data (.pstr "bar") true true)]

def c2St : ChainSt := ⟨0, none, c2Obj⟩

def c2Has : PDen × ChainSt :=
  spliceOperator reflectCallArray c2St .has [.val (keyVal "foo")]

/-- Claim C2, evaluated on the literal code at the failing input: the splice
does wait for the chain and the operands, does advance the chain, and does
preserve the receiver's identity (awaiting afterwards yields the same object) —
but the operation resolves to `false` where the repository's own test table
expects `Reflect.has({foo: "bar"}, "foo") = true`, because the default
operation is applied to the resolved argument array as a whole, not to the
resolved receiver with each operand as its own argument. -/
theorem C2_spliced_has_resolves_to_false :
    c2Has.1.out = .ok (.prim (.pbool false)) ∧
    c2Has.2.failed = none ∧
    c2Has.2.obj = c2Obj ∧
    awaitOut c2Has.2 = .ok (.obj c2Obj) :=
  ⟨rfl, rfl, rfl, rfl⟩

/-- Claim C3: if the previous chain tail has failed with `e`, any spliced
operation's result fails with `e` and the tail stays failed with `e`; if the
tail is healthy but one operand's pending computation fails with `e` (the
operands before it fulfilling), the result and the new tail fail with `e`; and
once the tail has failed with `e`, every operation subsequently spliced onto the
same future resolves — to a failure with cause `e` — rather than remaining
pending, whatever the operations and whatever the call semantics. -/
theorem C3_failure_propagates_and_chain_advances (call : CallSem) (st : ChainSt)
    (k : OpKind) (e : JsErr) :
    (∀ params : List SParam, st.failed = some e →
      (spliceOperator call st k params).1.out = .error e ∧
        (spliceOperator call st k params).2.failed = some e) ∧
    (∀ (l1 l2 : List SParam) (t : Nat), st.failed = none →
      (l1.map (fun p => (SParam.den p).out)).all exOk = true →
      (spliceOperator call st k (l1 ++ .pend t (.error e) :: l2)).1.out = .error e ∧
        (spliceOperator call st k (l1 ++ .pend t (.error e) :: l2)).2.failed = some e) ∧
    (∀ ops : List QueuedOp, st.failed = some e →
      (∀ r ∈ (runOps call st ops).1, r.out = .error e) ∧
        (runOps call st ops).2.failed = some e) :=
  ⟨fun params h => spliceOperator_failed call st k params e h,
   fun l1 l2 t hst h1 => spliceOperator_operand_failed call st k l1 l2 t e hst h1,
   fun ops h => ⟨(runOps_failed call st e h ops).1, (runOps_failed call st e h ops).2⟩⟩

/-- Witness for C3: a tail already failed with cause 5 makes a spliced get fail
with cause 5, and a healthy tail with a single operand rejected with cause 6
makes the spliced get fail with cause 6. -/
theorem C3_failure_propagates_and_chain_advances_witness :
    (spliceOperator reflectCallArray ⟨0, some (.custom 5), []⟩ .get []).1.out
        = .error (.custom 5) ∧
    (spliceOperator reflectCallArray ⟨0, none, []⟩ .get
        [SParam.pend 3 (.error (.custom 6))]).1.out = .error (.custom 6) := by
  refine ⟨?_, ?_⟩
  · exact (((C3_failure_propagates_and_chain_advances reflectCallArray
      ⟨0, some (.custom 5), []⟩ .get (.custom 5)).1) [] rfl).1
  · exact (((C3_failure_propagates_and_chain_advances reflectCallArray
      ⟨0, none, []⟩ .get (.custom 6)).2.1) [] [] 3 rfl rfl).1

/-- Claim C4 scenario: `Future.from({bar: "baz"})`, then the get trap for
property `"bar"`, then awaiting the read. -/
def c4Obj : JsObj := [("bar", .data (.pstr "baz") true true)]

def c4St : ChainSt := ⟨0, none, c4Obj⟩

def c4Get : GetResult × ChainSt :=
  getTrap reflectCallArray SENTINEL c4St (.str "bar")

/-- Claim C4, evaluated on the literal code at the failing input: the read is
spliced (the sentinel has no `bar`), and the spliced read resolves to
`undefined`, not to `"baz"`: the handler invokes `Reflect.get` with the resolved
`[{bar: "baz"}, "bar", receiver]` array as its single argument, so it reads the
key `"undefined"` off that array.  (In future.js the scenario in fact dies
earlier still: `Future.from` itself throws, see claim C5.) -/
theorem C4_awaited_read_is_undefined :
    c4Get.1 = .spliced ⟨1, .ok (.prim .undefined)⟩ ∧
    c4Get.2.failed = none ∧
    c4Get.2.obj = c4Obj :=
  ⟨rfl, rfl, rfl⟩

/-- Claim C5, evaluated on the literal code: `Future.from` throws a
ReferenceError for every argument (the constructor's first statement reads the
out-of-scope identifier `target`; its parameter is named `source`), so
`isFuture(from(x))` is never true; `isFuture` itself is total — it never throws
— and is false on every non-handle, including primitives; and `Future.await`
fails with the `NotAFuture` TypeError exactly when its argument is not a
registered future handle. -/
theorem C5_from_throws_registry_sound :
    (∀ (w : World) (v : JsVal), fromFuture w v = .error (.referenceError "target")) ∧
    (∀ (w : World) (v : JsVal), isFuture w (.plain v) = false) ∧
    (∀ (w : World) (rv : RVal),
      awaitRecord w rv = .error notAFuture ↔ isFuture w rv = false) := by
  refine ⟨fun w v => rfl, fun w v => rfl, fun w rv => ?_⟩
  cases rv with
  | plain v => simp [awaitRecord, isFuture]
  | handle i =>
    by_cases h : i ∈ w.registered
    · simp [awaitRecord, isFuture, h]
    · simp [awaitRecord, isFuture, h]

/-- Claim C6 as stated, set half: whenever the RESOLVED RECEIVER (the chain
state's underlying object) reports the property as existing and neither
configurable nor writable nor having a setter, the set trap returns false with
nothing queued. -/
def claimC6setStated : Prop :=
  ∀ (st : ChainSt) (p : String) (v : SParam) (d : JsDesc),
    List.lookup p st.obj = some d →
    (!(d.configurableB || d.writableTruthy || d.setTruthy)) = true →
    (setTrap reflectCallArray SENTINEL st p v).1 = false

/-- Claim C6 as stated, delete half: whenever the resolved property is
configurable (or absent), the delete is spliced as a deferred operation and the
trap returns true immediately. -/
def claimC6deleteStated : Prop :=
  ∀ (st : ChainSt) (p : String),
    (∀ d, List.lookup p st.obj = some d → d.configurableB = true) →
    ∃ st2, deleteTrap SENTINEL st p = .ok (true, st2)

/-- Counterexample to claim C6.  Set half: the receiver resolves to an object
whose property `p` is non-configurable, non-writable and setter-less, yet the
set trap returns true and splices — the descriptor it consults is the proxy
target's (the sentinel's), which has no `p`.  Delete half: deleting the
(absent, hence trivially deletable) property `p` does not report deferred
success: the trap throws a ReferenceError, because the splice call names the
out-of-scope identifiers `value` and `receiver`. -/
theorem C6_counterexample : ¬claimC6setStated ∧ ¬claimC6deleteStated := by
  constructor
  · intro h
    have h2 := h ⟨0, none, [("p", .data (.pstr "v") false false)]⟩ "p"
        (.val (.prim .undefined)) (.data (.pstr "v") false false) rfl rfl
    exact Bool.noConfusion h2
  · intro h
    obtain ⟨st2, hst⟩ := h ⟨0, none, []⟩ "p" (fun d hd => Option.noConfusion hd)
    exact Except.noConfusion hst

/-- Claim C6 amended: the descriptor the set/delete traps consult is the proxy
TARGET's (the scrubbed sentinel's), not the resolved receiver's.  Generically,
set returns false with nothing queued exactly when the target reports the
property as existing and neither configurable nor writable nor with a setter;
otherwise it splices a deferred set and returns true immediately.  On the
actual sentinel the refusal never fires (its only own property, `prototype`, is
writable), so every set splices and returns true.  Delete returns false
immediately for the sentinel's non-configurable `prototype`, and for every
other property it throws a ReferenceError (the splice call names the
out-of-scope identifiers `value` and `receiver`) instead of splicing a deferred
delete and returning true. -/
theorem C6_amended_trap_policy :
    (∀ (call : CallSem) (target : JsObj) (st : ChainSt) (p : String) (v : SParam) (d : JsDesc),
      List.lookup p target = some d →
      (!(d.configurableB || d.writableTruthy || d.setTruthy)) = true →
      setTrap call target st p v = (false, st)) ∧
    (∀ (call : CallSem) (st : ChainSt) (p : String) (v : SParam),
      setTrap call SENTINEL st p v =
        (true, (spliceOperator call st .set [.val (keyVal p), v, receiverParam st]).2)) ∧
    (∀ st : ChainSt, deleteTrap SENTINEL st "prototype" = .ok (false, st)) ∧
    (∀ (st : ChainSt) (p : String), p ≠ "prototype" →
      deleteTrap SENTINEL st p = .error (.referenceError "value")) := by
  refine ⟨?_, ?_, fun st => rfl, ?_⟩
  · intro call target st p v d hd hcond
    simp [setTrap, hd, hcond]
  · intro call st p v
    by_cases hp : p = "prototype"
    · subst hp; rfl
    · simp [setTrap, lookup_sentinel p hp]
  · intro st p hp
    simp [deleteTrap, lookup_sentinel p hp]

/-- Witness for the amended C6 at concrete inputs: a target with a frozen `k`
makes the set trap refuse synchronously, the sentinel makes a set of `k` splice
and report true, and deleting `q` through the sentinel throws the
ReferenceError. -/
theorem C6_amended_trap_policy_witness :
    setTrap reflectCallArray [("k", .data (.pstr "v") false false)] ⟨0, none, []⟩ "k"
        (.val (.prim .undefined)) = (false, ⟨0, none, []⟩) ∧
    (setTrap reflectCallArray SENTINEL ⟨0, none, []⟩ "k" (.val (.prim .undefined))).1 = true ∧
    deleteTrap SENTINEL ⟨0, none, []⟩ "q" = .error (.referenceError "value") := by
  refine ⟨?_, ?_, ?_⟩
  · exact C6_amended_trap_policy.1 reflectCallArray _ _ "k" _
      (.data (.pstr "v") false false) rfl rfl
  · rw [C6_amended_trap_policy.2.1 reflectCallArray ⟨0, none, []⟩ "k" (.val (.prim .undefined))]
  · exact C6_amended_trap_policy.2.2.2 ⟨0, none, []⟩ "q" (by decide)

/-- Claim C7 as stated, first clause: a get for a property whose RESOLVED
descriptor (on the receiver) is a non-configurable, non-writable data property
returns the property's real current value synchronously. -/
def claimC7getStated : Prop :=
  ∀ (st : ChainSt) (p : String) (v : JsPrim),
    List.lookup p st.obj = some (.data v false false) →
    (getTrap reflectCallArray SENTINEL st (.str p)).1 = .sync (.prim v)

/-- Claim C7 as stated, third clause, string keys: every read not covered by the
two descriptor cases (here: a property absent on the resolved receiver) is
spliced as a deferred get. -/
def claimC7otherStated : Prop :=
  ∀ (st : ChainSt) (p : String),
    List.lookup p st.obj = none →
    ∃ r, (getTrap reflectCallArray SENTINEL st (.str p)).1 = .spliced r

/-- Claim C7 as stated, third clause, symbol key: reading `Symbol.iterator`
(absent on the receiver) is likewise spliced as a deferred get. -/
def claimC7iterStated : Prop :=
  ∀ st : ChainSt, ∃ r, (getTrap reflectCallArray SENTINEL st .symIterator).1 = .spliced r

/-- Counterexample to claim C7, refuting all three clauses on the literal code:
a receiver whose `p` is frozen (non-configurable, non-writable) is NOT returned
synchronously — the trap consults the sentinel, finds nothing, and splices;
reading `"prototype"` on a receiver that does not even have it is NOT spliced —
the sentinel's own non-configurable, writable data property `prototype` takes
the `descriptor.get === undefined` branch (which tests data descriptors too)
and the trap synchronously returns `undefined`; and reading `Symbol.iterator`
is not spliced either — it returns the enumeration generator. -/
theorem C7_counterexample :
    ¬claimC7getStated ∧ ¬claimC7otherStated ∧ ¬claimC7iterStated := by
  refine ⟨?_, ?_, ?_⟩
  · intro h
    have h2 := h ⟨0, none, [("p", .data (.pstr "v") false false)]⟩ "p" (.pstr "v") rfl
    exact GetResult.noConfusion h2
  · intro h
    obtain ⟨r, hr⟩ := h ⟨0, none, []⟩ "prototype" rfl
    exact GetResult.noConfusion hr
  · intro h
    obtain ⟨r, hr⟩ := h ⟨0, none, []⟩
    exact GetResult.noConfusion hr

/-- Claim C7 amended: the descriptor the get trap consults is the proxy
TARGET's (the scrubbed sentinel's), not the resolved receiver's.  Generically,
a target property that is non-configurable with `writable === false` is
returned synchronously with the target's own value.  On the actual sentinel,
whose only own property is the non-configurable, WRITABLE data property
`prototype`: reading `"prototype"` synchronously returns `undefined` (the
`descriptor.get === undefined` branch fires for data descriptors too, not only
for getter-less accessors); reading `Symbol.iterator` synchronously returns the
enumeration generator; and every other read is spliced as a deferred get. -/
theorem C7_amended_get_policy :
    (∀ (call : CallSem) (target : JsObj) (st : ChainSt) (p : String) (d : JsDesc),
      List.lookup p target = some d → d.configurableB = false → d.writableIsFalse = true →
      getTrap call target st (.str p) = (.sync d.ownValue, st)) ∧
    (∀ (call : CallSem) (st : ChainSt),
      getTrap call SENTINEL st (.str "prototype") = (.sync (.prim .undefined), st)) ∧
    (∀ (call : CallSem) (st : ChainSt) (p : String), p ≠ "prototype" →
      getTrap call SENTINEL st (.str p) =
        (.spliced (spliceOperator call st .get [.val (keyVal p), receiverParam st]).1,
          (spliceOperator call st .get [.val (keyVal p), receiverParam st]).2)) ∧
    (∀ (call : CallSem) (st : ChainSt),
      getTrap call SENTINEL st .symIterator = (.enumGen, st)) := by
  refine ⟨?_, fun call st => rfl, ?_, fun call st => rfl⟩
  · intro call target st p d hd hconf hwrit
    simp [getTrap, descOf, hd, hconf, hwrit]
  · intro call st p hp
    simp [getTrap, descOf, lookup_sentinel p hp]

/-- Witness for the amended C7 at concrete inputs: a target with a frozen `k`
returns `"v"` synchronously, and through the sentinel a read of `bar` is
spliced, resolving (under the literal handler) to `undefined`. -/
theorem C7_amended_get_policy_witness :
    getTrap reflectCallArray [("k", .data (.pstr "v") false false)] ⟨0, none, []⟩ (.str "k")
        = (.sync (.prim (.pstr "v")), ⟨0, none, []⟩) ∧
    getTrap reflectCallArray SENTINEL ⟨0, none, []⟩ (.str "bar")
        = (.spliced ⟨1, .ok (.prim .undefined)⟩,
            (spliceOperator reflectCallArray ⟨0, none, []⟩ .get
              [.val (keyVal "bar"), receiverParam ⟨0, none, []⟩]).2) := by
  constructor
  · exact C7_amended_get_policy.1 reflectCallArray _ ⟨0, none, []⟩ "k"
      (.data (.pstr "v") false false) rfl rfl rfl
  · exact C7_amended_get_policy.2.2.1 reflectCallArray ⟨0, none, []⟩ "bar" (by decide)

/-- Claim C8, evaluated on the literal future.js code at the failing input, a
source resolving to `[a, b, c]`.  None of the claimed deliveries happens.  The
first of the 3 (or 4) step requests throws the constructor's ReferenceError
synchronously and kills the generator; the later requests get the
iterator-protocol terminal result, not futures resolving in request order to
`(false, a)`, `(false, b)`, `(false, c)` or `(true, undefined)`.  At settlement
the single orphaned backlog slot — pushed by the first request just before its
throw — is rejected with the `backlog.unshift()` TypeError, observed by nobody.
And with no pre-settlement requests at all, the overflow buffer from which
post-settlement requests would be served is never populated, because the
buffering call `Future.from({done, value})` itself throws on the first
element. -/
theorem C8_enumeration_steps_miscarry :
    enumRequest 0 = .threw (.referenceError "target") ∧
    enumRequest 1 = .protocolDone ∧
    enumRequest 2 = .protocolDone ∧
    enumRequest 3 = .protocolDone ∧
    enumSettle (enumBacklogLen 3) (.ok [.pstr "a", .pstr "b", .pstr "c"])
        = ([.error unshiftTypeError], []) ∧
    enumSettle (enumBacklogLen 4) (.ok [.pstr "a", .pstr "b", .pstr "c"])
        = ([.error unshiftTypeError], []) ∧
    enumSettle (enumBacklogLen 0) (.ok [.pstr "a", .pstr "b", .pstr "c"])
        = ([], []) :=
  ⟨rfl, rfl, rfl, rfl, rfl, rfl, rfl⟩

/-- Claim C9, evaluated on the literal future.js code: a requested step is
never rejected with the source's cause `E`, because the request already threw
the constructor's ReferenceError synchronously — no step future exists for the
rejection to propagate to, however many requests are made.  The catch handler
itself does reject every orphaned backlog slot with `E` and clears both lists
(the overflow being necessarily empty), but no consumer ever holds one of
those slots. -/
theorem C9_rejection_never_reaches_consumers (n : Nat) (e : JsErr) :
    enumRequest 0 = .threw (.referenceError "target") ∧
    (∀ k, enumRequest (k + 1) = .protocolDone) ∧
    enumSettle (enumBacklogLen (n + 1)) (.error e) = ([.error e], []) ∧
    enumSettle (enumBacklogLen n) (.error e)
        = (List.replicate (enumBacklogLen n) (.error e), []) := by
  refine ⟨rfl, fun k => rfl, ?_, rfl⟩
  have h1 : enumBacklogLen (n + 1) = 1 := Nat.min_eq_right (Nat.succ_le_succ (Nat.zero_le n))
  rw [h1]
  rfl

/-- Claim C10: the promise `Future.await` hands out is fixed at the moment of
the call.  Splicing distributes over concatenation — later operations start
from the record state the earlier ones left and the result promises already
handed out are unchanged — and the record's tail is characterized by the
operations spliced before the call: if every such operation's result fulfils,
awaiting yields the underlying receiver object (under the literal handler its
contents are, moreover, exactly the original ones); if some result fails, with
the results before the first failing one fulfilling, awaiting rejects with that
first failure's cause; and the tail settles strictly after every result handed
out, so awaiting completes only once every previously spliced operation has. -/
theorem C10_await_fixed_at_call (call : CallSem) (st : ChainSt) (ops : List QueuedOp) :
    (∀ l1 l2 : List QueuedOp, runOps call st (l1 ++ l2) =
        ((runOps call st l1).1 ++ (runOps call (runOps call st l1).2 l2).1,
          (runOps call (runOps call st l1).2 l2).2)) ∧
    (st.failed = none → (runOps call st ops).1.all (fun r => exOk r.out) = true →
      awaitOut (runOps call st ops).2 = .ok (.obj (runOps call st ops).2.obj)) ∧
    (∀ (rs1 : List PDen) (r : PDen) (rs2 : List PDen) (e : JsErr),
      st.failed = none → (runOps call st ops).1 = rs1 ++ r :: rs2 →
      rs1.all (fun x => exOk x.out) = true → r.out = .error e →
      awaitOut (runOps call st ops).2 = .error e) ∧
    (∀ r ∈ (runOps call st ops).1, r.time < (runOps call st ops).2.time) ∧
    (runOps reflectCallArray st ops).2.obj = st.obj := by
  refine ⟨runOps_append call st, ?_, ?_, runOps_results_settle_first call st ops,
    runOps_reflectCallArray_obj st ops⟩
  · intro h1 h2
    simp [awaitOut, runOps_all_ok call st ops h1 h2]
  · intro rs1 r rs2 e h1 h2 h3 h4
    simp [awaitOut, runOps_first_error call st ops rs1 r rs2 e h1 h2 h3 h4]

/-- Witness for C10 at concrete inputs: after one successful spliced get the
awaited outcome is the unchanged receiver object, and after one spliced get
whose operand rejects with cause 3 the awaited outcome is that same failure. -/
theorem C10_await_fixed_at_call_witness :
    awaitOut (runOps reflectCallArray ⟨0, none, [("x", .data (.pnum 7) true true)]⟩
        [⟨.get, [.val (keyVal "x")]⟩]).2 = .ok (.obj [("x", .data (.pnum 7) true true)]) ∧
    awaitOut (runOps reflectCallArray ⟨0, none, []⟩
        [⟨.get, [.pend 2 (.error (.custom 3))]⟩]).2 = .error (.custom 3) := by
  constructor
  · exact (C10_await_fixed_at_call reflectCallArray
      ⟨0, none, [("x", .data (.pnum 7) true true)]⟩ [⟨.get, [.val (keyVal "x")]⟩]).2.1 rfl rfl
  · exact (C10_await_fixed_at_call reflectCallArray ⟨0, none, []⟩
      [⟨.get, [.pend 2 (.error (.custom 3))]⟩]).2.2.1 [] ⟨3, .error (.custom 3)⟩ []
      (.custom 3) rfl rfl rfl rfl
